/-
Verification of the code-metrics analyzer and COCOMO estimator.

The Python sources (`code_metrics_analyzer.py`, `cocomo_analysis.py`) are
shallowly embedded below: the AST-visitor analyzers become structurally
recursive traversals over an inductive model of the Python AST, the SLOC
counter becomes a fold over the lines of a unit, and the COCOMO formulas
are stated over the real numbers (Python `float` arithmetic is modelled as
exact real/rational arithmetic; `round(..., n)` presentation rounding in
returned dictionaries is out of scope of the numeric contracts).
-/
import Mathlib

set_option maxHeartbeats 1000000

namespace CodeMetrics

/-! ## SLOCAnalyzer (`code_metrics_analyzer.py`, lines 67-122) -/

/-- The running counters of `SLOCAnalyzer` (`self.metrics`), which is the
`SizeRecord` aggregate: the analyzer instance is shared across the whole
batch, so these are running totals. -/
structure SLOCMetrics where
  total_lines : ℕ
  source_lines : ℕ
  comment_lines : ℕ
  blank_lines : ℕ
  files_analyzed : ℕ
deriving DecidableEq, Repr

/-- Initial counters of `SLOCAnalyzer.__init__`: all zero. -/
def SLOCMetrics.init : SLOCMetrics := ⟨0, 0, 0, 0, 0⟩

/-- Python substring test `pat in s`, expressed via `String.splitOn`. -/
def strContains (s pat : String) : Bool := (s.splitOn pat).length > 1

/-- The single-quote character (by code point, to avoid quoting issues in
this file's source). -/
def squoteChar : Char := Char.ofNat 39

/-- Python triple single-quote delimiter. -/
def tripleSingle : String := String.mk [squoteChar, squoteChar, squoteChar]

/-- Python triple double-quote delimiter. -/
def tripleDouble : String := "\"\"\""

/-- Test from line 99 of the source: the stripped line contains a
triple-quote delimiter. -/
def hasTripleQuote (s : String) : Bool :=
  strContains s tripleDouble || strContains s tripleSingle

/-- One iteration of the line loop of `SLOCAnalyzer.analyze_file`
(lines 90-116): classify one stripped line as blank / comment / source and
update the in-multiline-comment flag. -/
def slocLine (m : SLOCMetrics) (inMulti : Bool) (line : String) : SLOCMetrics × Bool :=
  let stripped := line.trim
  if stripped = "" then ({ m with blank_lines := m.blank_lines + 1 }, inMulti)
  else if hasTripleQuote stripped then
    if inMulti then ({ m with comment_lines := m.comment_lines + 1 }, false)
    else ({ m with comment_lines := m.comment_lines + 1 }, true)
  else if inMulti then ({ m with comment_lines := m.comment_lines + 1 }, inMulti)
  else if stripped.startsWith "#" then ({ m with comment_lines := m.comment_lines + 1 }, inMulti)
  else ({ m with source_lines := m.source_lines + 1 }, inMulti)

/-- The line loop of `SLOCAnalyzer.analyze_file` over the remaining lines. -/
def slocLines : List String → SLOCMetrics → Bool → SLOCMetrics
  | [], m, _ => m
  | l :: ls, m, inMulti => slocLines ls (slocLine m inMulti l).1 (slocLine m inMulti l).2

/-- `SLOCAnalyzer.analyze_file` on the lines of one readable unit: bump
`files_analyzed` and `total_lines`, then classify every line starting with
`in_multiline_comment = False`. -/
def slocAnalyzeFile (lines : List String) (m : SLOCMetrics) : SLOCMetrics :=
  slocLines lines
    { m with
      files_analyzed := m.files_analyzed + 1
      total_lines := m.total_lines + lines.length }
    false

/-- The `SizeRecord` invariant of the specification:
`total_lines = source_lines + comment_lines + blank_lines`. -/
def SLOCInv (m : SLOCMetrics) : Prop :=
  m.total_lines = m.source_lines + m.comment_lines + m.blank_lines

instance (m : SLOCMetrics) : Decidable (SLOCInv m) := by
  unfold SLOCInv; infer_instance

theorem slocLine_counts (m : SLOCMetrics) (b : Bool) (line : String) :
    (slocLine m b line).1.source_lines + (slocLine m b line).1.comment_lines
        + (slocLine m b line).1.blank_lines
      = m.source_lines + m.comment_lines + m.blank_lines + 1
    ∧ (slocLine m b line).1.total_lines = m.total_lines
    ∧ (slocLine m b line).1.files_analyzed = m.files_analyzed := by
  simp only [slocLine]
  split_ifs <;> simp <;> omega

theorem slocLines_counts (ls : List String) (m : SLOCMetrics) (b : Bool) :
    (slocLines ls m b).source_lines + (slocLines ls m b).comment_lines
        + (slocLines ls m b).blank_lines
      = m.source_lines + m.comment_lines + m.blank_lines + ls.length
    ∧ (slocLines ls m b).total_lines = m.total_lines
    ∧ (slocLines ls m b).files_analyzed = m.files_analyzed := by
  induction ls generalizing m b with
  | nil => simp [slocLines]
  | cons l ls ih =>
    obtain ⟨h1, h2, h3⟩ := slocLine_counts m b l
    obtain ⟨g1, g2, g3⟩ := ih (slocLine m b l).1 (slocLine m b l).2
    simp only [slocLines, List.length_cons]
    exact ⟨by omega, by omega, by omega⟩

theorem slocAnalyzeFile_counts (lines : List String) (m : SLOCMetrics) :
    (slocAnalyzeFile lines m).source_lines + (slocAnalyzeFile lines m).comment_lines
        + (slocAnalyzeFile lines m).blank_lines
      = m.source_lines + m.comment_lines + m.blank_lines + lines.length
    ∧ (slocAnalyzeFile lines m).total_lines = m.total_lines + lines.length
    ∧ (slocAnalyzeFile lines m).files_analyzed = m.files_analyzed + 1 := by
  unfold slocAnalyzeFile
  have h := slocLines_counts lines
    { m with
      files_analyzed := m.files_analyzed + 1
      total_lines := m.total_lines + lines.length } false
  simpa using h

/-- C4: the size counter classifies every line into exactly one of blank,
comment, or source, so `total_lines = source_lines + comment_lines +
blank_lines` holds for the record of a single unit, is preserved from any
state satisfying it, and holds for the running aggregate over any sequence
of units. -/
theorem c4_sloc_partition :
    (∀ lines : List String, SLOCInv (slocAnalyzeFile lines SLOCMetrics.init))
    ∧ (∀ (lines : List String) (m : SLOCMetrics),
        SLOCInv m → SLOCInv (slocAnalyzeFile lines m))
    ∧ (∀ units : List (List String),
        SLOCInv (units.foldl (fun m u => slocAnalyzeFile u m) SLOCMetrics.init)) := by
  have step : ∀ (lines : List String) (m : SLOCMetrics),
      SLOCInv m → SLOCInv (slocAnalyzeFile lines m) := by
    intro lines m hm
    have h := slocAnalyzeFile_counts lines m
    unfold SLOCInv at hm ⊢
    omega
  refine ⟨fun lines => step lines SLOCMetrics.init (by decide), step, ?_⟩
  intro units
  induction units using List.reverseRecOn with
  | nil => decide
  | append_singleton us u ih =>
    rw [List.foldl_append]
    exact step u _ ih

/-- Witness for C4: the hypothesis of the preservation part is satisfiable
and the conclusion evaluates on a concrete unit. -/
theorem c4_sloc_partition_witness :
    SLOCInv (slocAnalyzeFile ["x = 1", "", "# c"] SLOCMetrics.init) :=
  c4_sloc_partition.2.1 ["x = 1", "", "# c"] SLOCMetrics.init (by decide)

/-! ## Python AST model

The analyzers are `ast.NodeVisitor`s; they dispatch on the node kind and
fall back to `generic_visit`, which visits every child field in AST field
order.  The model below covers the node kinds the three tree-walking
analyzers distinguish; operator kinds are carried as their class names
(strings), exactly how `HalsteadAnalyzer` records them. -/

/-- Expression context (`ast.Load` / `ast.Store`). -/
inductive Ctx where
  | load
  | store
deriving DecidableEq, Repr

/-- The `ast.arguments` node of a function definition: identifiers of the
positional-only parameters, the positional-or-keyword parameters
(`node.args.args`), the `*args` parameter, the keyword-only parameters,
and the `**kwargs` parameter.  Defaults and annotations are not modelled;
no analyzer reads them. -/
structure Arguments where
  posonlyargs : List String
  args : List String
  vararg : Option String
  kwonlyargs : List String
  kwarg : Option String
deriving DecidableEq, Repr

/-- An empty parameter list. -/
def noParams : Arguments := ⟨[], [], none, [], none⟩

mutual
/-- Python expressions. -/
inductive Expr : Type where
  | name (id : String) (ctx : Ctx) (lineno : ℕ)
  | constant (value : String) (lineno : ℕ)
  | binOp (left : Expr) (op : String) (right : Expr)
  | unaryOp (op : String) (operand : Expr)
  | boolOp (op : String) (values : List Expr)
  | compare (left : Expr) (ops : List String) (comparators : List Expr)
  | call (func : Expr) (args : List Expr)
  | attr (value : Expr) (attrName : String) (ctx : Ctx)
  | subscript (value : Expr) (index : Expr) (ctx : Ctx)
  | tuple (elts : List Expr) (ctx : Ctx)

/-- Python statements. -/
inductive Stmt : Type where
  | functionDef (name : String) (args : Arguments) (body : List Stmt) (lineno : ℕ)
  | asyncFunctionDef (name : String) (args : Arguments) (body : List Stmt) (lineno : ℕ)
  | classDef (name : String) (body : List Stmt) (lineno : ℕ)
  | ifStmt (test : Expr) (body : List Stmt) (orelse : List Stmt)
  | whileStmt (test : Expr) (body : List Stmt) (orelse : List Stmt)
  | forStmt (target : Expr) (iter : Expr) (body : List Stmt) (orelse : List Stmt)
  | withStmt (context : Expr) (body : List Stmt)
  | tryStmt (body : List Stmt) (handlers : List Handler) (orelse : List Stmt)
      (finalbody : List Stmt)
  | assertStmt (test : Expr)
  | returnStmt (value : Option Expr)
  | assign (targets : List Expr) (value : Expr) (lineno : ℕ)
  | augAssign (target : Expr) (op : String) (value : Expr) (lineno : ℕ)
  | exprStmt (value : Expr)
  | pass

/-- An `ast.ExceptHandler` node (its body). -/
inductive Handler : Type where
  | mk (body : List Stmt)
end

/-! ## CyclomaticComplexityAnalyzer (`code_metrics_analyzer.py`, lines 125-208) -/

/-- One `CyclomaticMetrics` record (dataclass of the source). -/
structure CyclomaticMetrics where
  function_name : String
  complexity : ℕ
  line_number : ℕ
deriving DecidableEq, Repr

/-- Mutable visitor state of `CyclomaticComplexityAnalyzer`. -/
structure CycState where
  complexities : List CyclomaticMetrics
  current_function : Option String
  current_complexity : ℕ
  current_line : ℕ
deriving DecidableEq, Repr

/-- `CyclomaticComplexityAnalyzer.__init__`. -/
def CycState.init : CycState := ⟨[], none, 0, 0⟩

mutual
/-- Visitor dispatch on one expression.  `visit_BoolOp` adds
`len(values) - 1` (boolean operations in real ASTs always have at least
two operands); all other expressions fall through to `generic_visit`. -/
def cycExpr : Expr → CycState → CycState
  | .name _ _ _, s => s
  | .constant _ _, s => s
  | .binOp l _ r, s => cycExpr r (cycExpr l s)
  | .unaryOp _ e, s => cycExpr e s
  | .boolOp _ vs, s =>
      cycExprList vs { s with current_complexity := s.current_complexity + (vs.length - 1) }
  | .compare l _ cs, s => cycExprList cs (cycExpr l s)
  | .call f as, s => cycExprList as (cycExpr f s)
  | .attr v _ _, s => cycExpr v s
  | .subscript v i _, s => cycExpr i (cycExpr v s)
  | .tuple es _, s => cycExprList es s
termination_by structural e _ => e

def cycExprList : List Expr → CycState → CycState
  | [], s => s
  | e :: es, s => cycExprList es (cycExpr e s)
termination_by structural es _ => es

/-- Visitor dispatch on one statement.  `visit_FunctionDef` (also bound
to `visit_AsyncFunctionDef`) saves the previous function name and
complexity, seeds the accumulator at 1, sets `current_line` to the
declaration line, traverses the body, appends the record, and restores
the function name and complexity.  Note that the source does NOT save or
restore `current_line`. -/
def cycStmt : Stmt → CycState → CycState
  | .functionDef name _ body line, s =>
      let inner := cycStmtList body
        { s with current_function := some name, current_complexity := 1, current_line := line }
      { inner with
        complexities := inner.complexities ++
          [⟨inner.current_function.getD "", inner.current_complexity, inner.current_line⟩]
        current_function := s.current_function
        current_complexity := s.current_complexity }
  | .asyncFunctionDef name _ body line, s =>
      let inner := cycStmtList body
        { s with current_function := some name, current_complexity := 1, current_line := line }
      { inner with
        complexities := inner.complexities ++
          [⟨inner.current_function.getD "", inner.current_complexity, inner.current_line⟩]
        current_function := s.current_function
        current_complexity := s.current_complexity }
  | .classDef _ body _, s => cycStmtList body s
  | .ifStmt t b e, s =>
      cycStmtList e (cycStmtList b
        (cycExpr t { s with current_complexity := s.current_complexity + 1 }))
  | .whileStmt t b e, s =>
      cycStmtList e (cycStmtList b
        (cycExpr t { s with current_complexity := s.current_complexity + 1 }))
  | .forStmt tg it b e, s =>
      cycStmtList e (cycStmtList b (cycExpr it
        (cycExpr tg { s with current_complexity := s.current_complexity + 1 })))
  | .withStmt c b, s =>
      cycStmtList b (cycExpr c { s with current_complexity := s.current_complexity + 1 })
  | .tryStmt b hs e f, s =>
      cycStmtList f (cycStmtList e (cycHandlerList hs (cycStmtList b s)))
  | .assertStmt t, s =>
      cycExpr t { s with current_complexity := s.current_complexity + 1 }
  | .returnStmt none, s => s
  | .returnStmt (some v), s => cycExpr v s
  | .assign ts v _, s => cycExpr v (cycExprList ts s)
  | .augAssign t _ v _, s => cycExpr v (cycExpr t s)
  | .exprStmt v, s => cycExpr v s
  | .pass, s => s
termination_by structural st _ => st

def cycStmtList : List Stmt → CycState → CycState
  | [], s => s
  | st :: sts, s => cycStmtList sts (cycStmt st s)
termination_by structural sts _ => sts

/-- `visit_ExceptHandler`: each handler adds 1, then its body is visited. -/
def cycHandler : Handler → CycState → CycState
  | .mk b, s => cycStmtList b { s with current_complexity := s.current_complexity + 1 }
termination_by structural h _ => h

def cycHandlerList : List Handler → CycState → CycState
  | [], s => s
  | h :: hs, s => cycHandlerList hs (cycHandler h s)
termination_by structural hs _ => hs
end

/-- `CyclomaticComplexityAnalyzer.analyze_file` on a successfully parsed
module: visit the tree from a fresh analyzer and return the records. -/
def cycRun (tree : List Stmt) : List CyclomaticMetrics :=
  (cycStmtList tree CycState.init).complexities

/-- A module with a nested function:
`def outer():` (line 1) containing `def inner(): pass` (line 2). -/
def cycNestedExample : List Stmt :=
  [.functionDef "outer" noParams [.functionDef "inner" noParams [.pass] 2] 1]

/-- C6 failing input: on a function containing a nested function, one
record is emitted per declaration and the complexity accumulator is
correctly restored, but `current_line` is not saved/restored, so the outer
function's record carries the nested function's declaration line (2
instead of 1). -/
theorem c6_nested_line_bug :
    cycRun cycNestedExample =
      [⟨"inner", 1, 2⟩, ⟨"outer", 1, 2⟩] := by
  decide

/-! ## HalsteadAnalyzer (`code_metrics_analyzer.py`, lines 211-361) -/

/-- The `HalsteadMetrics` dataclass of the source.  Real-valued fields
use exact real arithmetic in place of `float`. -/
structure HalsteadMetrics where
  n1 : ℕ
  n2 : ℕ
  bigN1 : ℕ
  bigN2 : ℕ
  vocabulary : ℕ
  length : ℕ
  calculated_length : ℝ
  volume : ℝ
  difficulty : ℝ
  effort : ℝ
  time : ℝ
  bugs : ℝ

/-- Mutable state of `HalsteadAnalyzer`: the two occurrence lists. -/
structure HalState where
  operators : List String
  operands : List String
deriving DecidableEq, Repr

mutual
/-- Visitor dispatch on one expression: operator kinds are recorded by
class name, names and constants as operands (constants by `str(value)`). -/
def halExpr : Expr → HalState → HalState
  | .name id _ _, s => { s with operands := s.operands ++ [id] }
  | .constant v _, s => { s with operands := s.operands ++ [v] }
  | .binOp l op r, s => halExpr r (halExpr l { s with operators := s.operators ++ [op] })
  | .unaryOp op e, s => halExpr e { s with operators := s.operators ++ [op] }
  | .boolOp op vs, s => halExprList vs { s with operators := s.operators ++ [op] }
  | .compare l ops cs, s => halExprList cs (halExpr l { s with operators := s.operators ++ ops })
  | .call f as, s => halExprList as (halExpr f { s with operators := s.operators ++ ["Call"] })
  | .attr v _ _, s => halExpr v s
  | .subscript v i _, s => halExpr i (halExpr v s)
  | .tuple es _, s => halExprList es s
termination_by structural e _ => e

def halExprList : List Expr → HalState → HalState
  | [], s => s
  | e :: es, s => halExprList es (halExpr e s)
termination_by structural es _ => es

/-- Visitor dispatch on one statement.  Note: `HalsteadAnalyzer` defines
`visit_FunctionDef` but (unlike the other two visitors) no alias for
`AsyncFunctionDef`, so an async definition only has its body visited. -/
def halStmt : Stmt → HalState → HalState
  | .functionDef n _ body _, s =>
      halStmtList body
        { s with operators := s.operators ++ ["FunctionDef"], operands := s.operands ++ [n] }
  | .asyncFunctionDef _ _ body _, s => halStmtList body s
  | .classDef n body _, s =>
      halStmtList body
        { s with operators := s.operators ++ ["ClassDef"], operands := s.operands ++ [n] }
  | .ifStmt t b e, s =>
      halStmtList e (halStmtList b (halExpr t { s with operators := s.operators ++ ["If"] }))
  | .whileStmt t b e, s =>
      halStmtList e (halStmtList b (halExpr t { s with operators := s.operators ++ ["While"] }))
  | .forStmt tg it b e, s =>
      halStmtList e (halStmtList b (halExpr it (halExpr tg
        { s with operators := s.operators ++ ["For"] })))
  | .withStmt c b, s => halStmtList b (halExpr c s)
  | .tryStmt b hs e f, s =>
      halStmtList f (halStmtList e (halHandlerList hs (halStmtList b s)))
  | .assertStmt t, s => halExpr t s
  | .returnStmt none, s => { s with operators := s.operators ++ ["Return"] }
  | .returnStmt (some v), s => halExpr v { s with operators := s.operators ++ ["Return"] }
  | .assign ts v _, s =>
      halExpr v (halExprList ts { s with operators := s.operators ++ ["Assign"] })
  | .augAssign t _ v _, s =>
      halExpr v (halExpr t { s with operators := s.operators ++ ["AugAssign"] })
  | .exprStmt v, s => halExpr v s
  | .pass, s => s
termination_by structural st _ => st

def halStmtList : List Stmt → HalState → HalState
  | [], s => s
  | st :: sts, s => halStmtList sts (halStmt st s)
termination_by structural sts _ => sts

def halHandler : Handler → HalState → HalState
  | .mk b, s => halStmtList b s
termination_by structural h _ => h

def halHandlerList : List Handler → HalState → HalState
  | [], s => s
  | h :: hs, s => halHandlerList hs (halHandler h s)
termination_by structural hs _ => hs
end

/-- All operator occurrences collected over one unit. -/
def halsteadOperators (tree : List Stmt) : List String :=
  (halStmtList tree ⟨[], []⟩).operators

/-- All operand occurrences collected over one unit. -/
def halsteadOperands (tree : List Stmt) : List String :=
  (halStmtList tree ⟨[], []⟩).operands

/-- `n1 = len(set(self.operators))`: distinct operators. -/
def halN1 (tree : List Stmt) : ℕ := (halsteadOperators tree).dedup.length

/-- `n2 = len(set(self.operands))`: distinct operands. -/
def halN2 (tree : List Stmt) : ℕ := (halsteadOperands tree).dedup.length

/-- `N1 = len(self.operators)`: total operator occurrences. -/
def halTotal1 (tree : List Stmt) : ℕ := (halsteadOperators tree).length

/-- `N2 = len(self.operands)`: total operand occurrences. -/
def halTotal2 (tree : List Stmt) : ℕ := (halsteadOperands tree).length

/-- The straight-line metric block of `HalsteadAnalyzer.analyze_file`
(lines 322-357), computing the record from the four counts. -/
noncomputable def halsteadRecord (n1 n2 N1 N2 : ℕ) : HalsteadMetrics :=
  let vocabulary := n1 + n2
  let length := N1 + N2
  let calc_length : ℝ :=
    (if 0 < n1 then (n1 : ℝ) * Real.logb 2 n1 else 0) +
    (if 0 < n2 then (n2 : ℝ) * Real.logb 2 n2 else 0)
  let volume : ℝ := if 0 < vocabulary then (length : ℝ) * Real.logb 2 vocabulary else 0
  let difficulty : ℝ := if 0 < n2 then ((n1 : ℝ) / 2) * ((N2 : ℝ) / n2) else 0
  let effort := difficulty * volume
  { n1 := n1, n2 := n2, bigN1 := N1, bigN2 := N2, vocabulary := vocabulary, length := length,
    calculated_length := calc_length, volume := volume, difficulty := difficulty,
    effort := effort, time := effort / 18, bugs := volume / 3000 }

/-- `HalsteadAnalyzer.analyze_file` on a successfully parsed module: skip
(return `None`) when `n1 == 0 or n2 == 0`, otherwise emit the record. -/
noncomputable def halsteadAnalyze (tree : List Stmt) : Option HalsteadMetrics :=
  if halN1 tree = 0 ∨ halN2 tree = 0 then none
  else some (halsteadRecord (halN1 tree) (halN2 tree) (halTotal1 tree) (halTotal2 tree))

/-- C2: every emitted Halstead record satisfies exactly the software
science formulas, with `n1`, `n2`, `N1`, `N2` being the distinct/total
operator and operand counts collected over the unit; the guarded terms of
the estimated length are present since their bases are nonzero for every
defined record, and volume and difficulty take their formula branches. -/
theorem c2_halstead_formulas (tree : List Stmt) (r : HalsteadMetrics)
    (h : halsteadAnalyze tree = some r) :
    r.n1 = (halsteadOperators tree).dedup.length
    ∧ r.n2 = (halsteadOperands tree).dedup.length
    ∧ r.bigN1 = (halsteadOperators tree).length
    ∧ r.bigN2 = (halsteadOperands tree).length
    ∧ r.vocabulary = r.n1 + r.n2
    ∧ r.length = r.bigN1 + r.bigN2
    ∧ r.calculated_length = (r.n1 : ℝ) * Real.logb 2 r.n1 + (r.n2 : ℝ) * Real.logb 2 r.n2
    ∧ r.volume = (r.length : ℝ) * Real.logb 2 r.vocabulary
    ∧ r.difficulty = ((r.n1 : ℝ) / 2) * ((r.bigN2 : ℝ) / r.n2)
    ∧ r.effort = r.difficulty * r.volume
    ∧ r.time = r.effort / 18
    ∧ r.bugs = r.volume / 3000 := by
  unfold halsteadAnalyze at h
  split_ifs at h with hzero
  case _ =>
    push_neg at hzero
    obtain ⟨ha, hb⟩ := hzero
    have h1 : 0 < halN1 tree := Nat.pos_of_ne_zero ha
    have h2 : 0 < halN2 tree := Nat.pos_of_ne_zero hb
    have hvoc : 0 < halN1 tree + halN2 tree := by omega
    injection h with h
    subst h
    refine ⟨rfl, rfl, rfl, rfl, rfl, rfl, ?_, ?_, ?_, rfl, rfl, rfl⟩
    · simp only [halsteadRecord]
      rw [if_pos h1, if_pos h2]
    · simp only [halsteadRecord]
      rw [if_pos hvoc]
    · simp only [halsteadRecord]
      rw [if_pos h2]

/-- A minimal unit whose only tokens are one repeated operator and one
repeated operand: the expression statement `x + x`. -/
def halMinimalExample : List Stmt :=
  [.exprStmt (.binOp (.name "x" .load 1) "Add" (.name "x" .load 1))]

theorem halMinimalExample_counts :
    halN1 halMinimalExample = 1 ∧ halN2 halMinimalExample = 1
    ∧ halTotal1 halMinimalExample = 1 ∧ halTotal2 halMinimalExample = 2 := by
  simp only [halN1, halN2, halTotal1, halTotal2, halsteadOperators, halsteadOperands]
  norm_num [halStmtList, halStmt, halExpr, List.dedup_cons_of_mem, List.dedup_cons_of_not_mem]

/-- C7: the vocabulary analyzer emits a defined record exactly when
`n1 ≥ 1` and `n2 ≥ 1` (otherwise the unit is skipped with no record), and
a unit with `n1 = n2 = 1` (a single repeated operator and operand) still
produces a defined record. -/
theorem c7_halstead_definedness :
    (∀ tree : List Stmt,
      (halsteadAnalyze tree).isSome = true ↔ 1 ≤ halN1 tree ∧ 1 ≤ halN2 tree)
    ∧ (∀ tree : List Stmt,
      halsteadAnalyze tree = none ↔ (halN1 tree = 0 ∨ halN2 tree = 0))
    ∧ halN1 halMinimalExample = 1 ∧ halN2 halMinimalExample = 1
    ∧ (halsteadAnalyze halMinimalExample).isSome = true := by
  have hiff : ∀ tree : List Stmt,
      (halsteadAnalyze tree).isSome = true ↔ 1 ≤ halN1 tree ∧ 1 ≤ halN2 tree := by
    intro tree
    unfold halsteadAnalyze
    split_ifs with hzero
    · simp only [Option.isSome_none, Bool.false_eq_true, false_iff]
      omega
    · simp only [Option.isSome_some, true_iff]
      omega
  have hnone : ∀ tree : List Stmt,
      halsteadAnalyze tree = none ↔ (halN1 tree = 0 ∨ halN2 tree = 0) := by
    intro tree
    unfold halsteadAnalyze
    split_ifs with hzero
    · simp [hzero]
    · simp [hzero]
  obtain ⟨h1, h2, -, -⟩ := halMinimalExample_counts
  exact ⟨hiff, hnone, h1, h2, (hiff halMinimalExample).mpr (by omega)⟩

/-- Witness for C2: the formula theorem applies to a concrete unit. -/
theorem c2_halstead_formulas_witness :
    ∃ r, halsteadAnalyze halMinimalExample = some r
      ∧ r.vocabulary = r.n1 + r.n2 ∧ r.length = r.bigN1 + r.bigN2 := by
  have hsome : (halsteadAnalyze halMinimalExample).isSome = true := by
    obtain ⟨h1, h2, -, -⟩ := halMinimalExample_counts
    unfold halsteadAnalyze
    rw [if_neg (by omega)]
    rfl
  obtain ⟨r, hr⟩ := Option.isSome_iff_exists.mp hsome
  obtain ⟨-, -, -, -, h5, h6, -⟩ := c2_halstead_formulas halMinimalExample r hr
  exact ⟨r, hr, h5, h6⟩

/-- Witness for C7: the definedness equivalence applies to a concrete
unit whose counts are nonzero. -/
theorem c7_halstead_definedness_witness :
    (halsteadAnalyze [.exprStmt (.name "y" .load 1), .returnStmt none]).isSome = true := by
  refine (c7_halstead_definedness.1 _).mpr ?_
  constructor <;>
    · simp only [halN1, halN2, halsteadOperators, halsteadOperands]
      norm_num [halStmtList, halStmt, halExpr]

/-! ## DataFlowAnalyzer (`code_metrics_analyzer.py`, lines 364-455) -/

/-- The `DataFlowMetrics` dataclass of the source (Python sets become
`Finset`, the `defaultdict(list)` def-use map becomes an insertion-ordered
association list). -/
structure DataFlowMetrics where
  function_name : String
  variables_defined : Finset String
  variables_used : Finset String
  live_variables : Finset String
  def_use_chains : List (String × List ℕ)
  reaching_definitions : ℕ
deriving DecidableEq

/-- `self.def_use_chains[name].append(lineno)` on a `defaultdict(list)`:
append to the existing entry, or create a fresh singleton entry. -/
def chainAppend (cs : List (String × List ℕ)) (x : String) (n : ℕ) :
    List (String × List ℕ) :=
  if cs.any (fun p => p.1 = x) then
    cs.map (fun p => if p.1 = x then (p.1, p.2 ++ [n]) else p)
  else cs ++ [(x, [n])]

/-- Mutable visitor state of `DataFlowAnalyzer`. -/
structure DFState where
  functions : List DataFlowMetrics
  current_function : Option String
  current_defs : Finset String
  current_uses : Finset String
  def_use_chains : List (String × List ℕ)
  current_line : ℕ
deriving DecidableEq

/-- `DataFlowAnalyzer.__init__`. -/
def DFState.init : DFState := ⟨[], none, ∅, ∅, [], 0⟩

/-- The body of the target loop of `visit_Assign`: only a plain
`ast.Name` target adds its identifier to the defined set; all other
target shapes are ignored (and, notably, not visited at all). -/
def dfAddTarget (s : DFState) (t : Expr) : DFState :=
  match t with
  | .name id _ _ => { s with current_defs := insert id s.current_defs }
  | _ => s

/-- The target loop of `visit_Assign` over all targets. -/
def dfAssignTargets (ts : List Expr) (s : DFState) : DFState := ts.foldl dfAddTarget s

/-- `visit_AugAssign` on the target: a plain-`Name` target is recorded as
used and defined and gets the statement's line appended to its def-use
chain; any other target shape is ignored. -/
def dfAugTarget (t : Expr) (line : ℕ) (s : DFState) : DFState :=
  match t with
  | .name id _ _ =>
      { s with
        current_uses := insert id s.current_uses
        current_defs := insert id s.current_defs
        def_use_chains := chainAppend s.def_use_chains id line }
  | _ => s

/-- The record built at the end of `visit_FunctionDef` from the inner
state: name, defined, used, `live = used - defined`, the chains, and
`reaching_definitions = len(defined)`. -/
def dfEmit (inner : DFState) : DataFlowMetrics :=
  ⟨inner.current_function.getD "", inner.current_defs, inner.current_uses,
    inner.current_uses \ inner.current_defs, inner.def_use_chains,
    inner.current_defs.card⟩

mutual
/-- Visitor dispatch on one expression: `visit_Name` records `Load`
references as uses and appends to the def-use chain of already-defined
names; everything else falls through to `generic_visit`. -/
def dfExpr : Expr → DFState → DFState
  | .name id ctx line, s =>
      match ctx with
      | .load =>
          if id ∈ s.current_defs then
            { s with
              current_uses := insert id s.current_uses
              def_use_chains := chainAppend s.def_use_chains id line }
          else { s with current_uses := insert id s.current_uses }
      | .store => s
  | .constant _ _, s => s
  | .binOp l _ r, s => dfExpr r (dfExpr l s)
  | .unaryOp _ e, s => dfExpr e s
  | .boolOp _ vs, s => dfExprList vs s
  | .compare l _ cs, s => dfExprList cs (dfExpr l s)
  | .call f as, s => dfExprList as (dfExpr f s)
  | .attr v _ _, s => dfExpr v s
  | .subscript v i _, s => dfExpr i (dfExpr v s)
  | .tuple es _, s => dfExprList es s
termination_by structural e _ => e

def dfExprList : List Expr → DFState → DFState
  | [], s => s
  | e :: es, s => dfExprList es (dfExpr e s)
termination_by structural es _ => es

/-- Visitor dispatch on one statement.  `visit_FunctionDef` (also bound
to `visit_AsyncFunctionDef`) saves the previous context, resets the sets
and chains, adds the parameters as initial definitions — the source loops
over `node.args.args` only, so positional-only, `*args`, keyword-only and
`**kwargs` parameters are NOT added — visits the body statements, emits
the record with `live = used - defined`, and restores the saved
context. -/
def dfStmt : Stmt → DFState → DFState
  | .functionDef name args body line, s =>
      let inner := dfStmtList body
        { s with
          current_function := some name
          current_defs := args.args.foldl (fun d a => insert a d) ∅
          current_uses := ∅
          def_use_chains := []
          current_line := line }
      { inner with
        functions := inner.functions ++ [dfEmit inner]
        current_function := s.current_function
        current_defs := s.current_defs
        current_uses := s.current_uses
        def_use_chains := s.def_use_chains }
  | .asyncFunctionDef name args body line, s =>
      let inner := dfStmtList body
        { s with
          current_function := some name
          current_defs := args.args.foldl (fun d a => insert a d) ∅
          current_uses := ∅
          def_use_chains := []
          current_line := line }
      { inner with
        functions := inner.functions ++ [dfEmit inner]
        current_function := s.current_function
        current_defs := s.current_defs
        current_uses := s.current_uses
        def_use_chains := s.def_use_chains }
  | .classDef _ b _, s => dfStmtList b s
  | .ifStmt t b e, s => dfStmtList e (dfStmtList b (dfExpr t s))
  | .whileStmt t b e, s => dfStmtList e (dfStmtList b (dfExpr t s))
  | .forStmt tg it b e, s => dfStmtList e (dfStmtList b (dfExpr it (dfExpr tg s)))
  | .withStmt c b, s => dfStmtList b (dfExpr c s)
  | .tryStmt b hs e f, s => dfStmtList f (dfStmtList e (dfHandlerList hs (dfStmtList b s)))
  | .assertStmt t, s => dfExpr t s
  | .returnStmt none, s => s
  | .returnStmt (some v), s => dfExpr v s
  | .assign ts v _, s => dfExpr v (dfAssignTargets ts s)
  | .augAssign t _ v line, s => dfExpr v (dfAugTarget t line s)
  | .exprStmt v, s => dfExpr v s
  | .pass, s => s
termination_by structural st _ => st

def dfStmtList : List Stmt → DFState → DFState
  | [], s => s
  | st :: sts, s => dfStmtList sts (dfStmt st s)
termination_by structural sts _ => sts

def dfHandler : Handler → DFState → DFState
  | .mk b, s => dfStmtList b s
termination_by structural h _ => h

def dfHandlerList : List Handler → DFState → DFState
  | [], s => s
  | h :: hs, s => dfHandlerList hs (dfHandler h s)
termination_by structural hs _ => hs
end

/-- The body of `visit_FunctionDef` as a standalone function of the
function's name, formal parameters, body, declaration line, and the
incoming state; `dfStmt` computes exactly this on (async) function
definitions (see `dfStmt_functionDef`). -/
def dfFunction (name : String) (args : Arguments) (body : List Stmt) (line : ℕ)
    (s : DFState) : DFState :=
  let inner := dfStmtList body
    { s with
      current_function := some name
      current_defs := args.args.foldl (fun d a => insert a d) ∅
      current_uses := ∅
      def_use_chains := []
      current_line := line }
  { inner with
    functions := inner.functions ++ [dfEmit inner]
    current_function := s.current_function
    current_defs := s.current_defs
    current_uses := s.current_uses
    def_use_chains := s.def_use_chains }

theorem dfStmt_functionDef (name : String) (args : Arguments) (body : List Stmt)
    (line : ℕ) (s : DFState) :
    dfStmt (.functionDef name args body line) s = dfFunction name args body line s := rfl

theorem dfStmt_asyncFunctionDef (name : String) (args : Arguments) (body : List Stmt)
    (line : ℕ) (s : DFState) :
    dfStmt (.asyncFunctionDef name args body line) s = dfFunction name args body line s := rfl

/-- `DataFlowAnalyzer.analyze_file` on a successfully parsed module. -/
def dfRun (tree : List Stmt) : List DataFlowMetrics :=
  (dfStmtList tree DFState.init).functions

/-- The record invariant of C5: live variables are exactly the used
variables minus the defined ones. -/
def DFRecOK (r : DataFlowMetrics) : Prop :=
  r.live_variables = r.variables_used \ r.variables_defined

/-- How any single visit transforms the state: definitions only grow, the
current function name is preserved, and the record list is extended by
records satisfying `DFRecOK`. -/
def DFStep (s t : DFState) : Prop :=
  s.current_defs ⊆ t.current_defs
  ∧ t.current_function = s.current_function
  ∧ ∃ new, t.functions = s.functions ++ new ∧ ∀ r ∈ new, DFRecOK r

theorem DFStep.refl (s : DFState) : DFStep s s :=
  ⟨Finset.Subset.refl _, rfl, [], by simp, by simp⟩

theorem DFStep.trans {s t u : DFState} (h1 : DFStep s t) (h2 : DFStep t u) :
    DFStep s u := by
  obtain ⟨d1, f1, n1, e1, g1⟩ := h1
  obtain ⟨d2, f2, n2, e2, g2⟩ := h2
  refine ⟨Finset.Subset.trans d1 d2, f2.trans f1, n1 ++ n2, ?_, ?_⟩
  · rw [e2, e1, List.append_assoc]
  · intro r hr
    rcases List.mem_append.mp hr with h | h
    · exact g1 r h
    · exact g2 r h

theorem DFStep.of_parts {s t : DFState} (h1 : s.current_defs ⊆ t.current_defs)
    (h2 : t.current_function = s.current_function) (h3 : t.functions = s.functions) :
    DFStep s t :=
  ⟨h1, h2, [], by simp [h3], by simp⟩

theorem dfAddTarget_step (s : DFState) (t : Expr) : DFStep s (dfAddTarget s t) := by
  cases t <;>
    exact DFStep.of_parts (by simp [dfAddTarget, Finset.subset_insert]) rfl rfl

theorem dfAssignTargets_step (ts : List Expr) (s : DFState) :
    DFStep s (dfAssignTargets ts s) := by
  induction ts generalizing s with
  | nil => exact DFStep.refl s
  | cons t ts ih =>
    exact (dfAddTarget_step s t).trans (by simpa [dfAssignTargets] using ih (dfAddTarget s t))

theorem dfAugTarget_step (t : Expr) (line : ℕ) (s : DFState) :
    DFStep s (dfAugTarget t line s) := by
  cases t <;>
    exact DFStep.of_parts (by simp [dfAugTarget, Finset.subset_insert]) rfl rfl

mutual
theorem dfExpr_step (e : Expr) (s : DFState) : DFStep s (dfExpr e s) := by
  cases e with
  | name id ctx line =>
    cases ctx with
    | load =>
      simp only [dfExpr]
      split_ifs <;> exact DFStep.of_parts (by simp) rfl rfl
    | store =>
      simp only [dfExpr]
      exact DFStep.refl s
  | constant v line =>
    simp only [dfExpr]
    exact DFStep.refl s
  | binOp l op r =>
    simp only [dfExpr]
    exact (dfExpr_step l s).trans (dfExpr_step r _)
  | unaryOp op e =>
    simp only [dfExpr]
    exact dfExpr_step e s
  | boolOp op vs =>
    simp only [dfExpr]
    exact dfExprList_step vs s
  | compare l ops cs =>
    simp only [dfExpr]
    exact (dfExpr_step l s).trans (dfExprList_step cs _)
  | call f as =>
    simp only [dfExpr]
    exact (dfExpr_step f s).trans (dfExprList_step as _)
  | attr v a c =>
    simp only [dfExpr]
    exact dfExpr_step v s
  | subscript v i c =>
    simp only [dfExpr]
    exact (dfExpr_step v s).trans (dfExpr_step i _)
  | tuple es c =>
    simp only [dfExpr]
    exact dfExprList_step es s

theorem dfExprList_step (es : List Expr) (s : DFState) : DFStep s (dfExprList es s) := by
  cases es with
  | nil =>
    simp only [dfExprList]
    exact DFStep.refl s
  | cons e es =>
    simp only [dfExprList]
    exact (dfExpr_step e s).trans (dfExprList_step es _)

theorem dfFunction_step_of (n : String) (args : Arguments) (body : List Stmt) (line : ℕ)
    (s : DFState)
    (hbody : DFStep
      { s with
        current_function := some n
        current_defs := args.args.foldl (fun d a => insert a d) ∅
        current_uses := ∅
        def_use_chains := []
        current_line := line }
      (dfStmtList body
        { s with
          current_function := some n
          current_defs := args.args.foldl (fun d a => insert a d) ∅
          current_uses := ∅
          def_use_chains := []
          current_line := line })) :
    DFStep s (dfFunction n args body line s) := by
  obtain ⟨-, -, new, hnew, hgood⟩ := hbody
  refine ⟨by simp [dfFunction], by simp [dfFunction],
    new ++ [dfEmit (dfStmtList body
      { s with
        current_function := some n
        current_defs := args.args.foldl (fun d a => insert a d) ∅
        current_uses := ∅
        def_use_chains := []
        current_line := line })], ?_, ?_⟩
  · simp only [dfFunction]
    rw [hnew]
    simp
  · intro r hr
    rcases List.mem_append.mp hr with h | h
    · exact hgood r h
    · rcases List.mem_singleton.mp h with h
      subst h
      rfl

theorem dfStmt_step (st : Stmt) (s : DFState) : DFStep s (dfStmt st s) := by
  cases st with
  | functionDef n a b line =>
    exact dfFunction_step_of n a b line s (dfStmtList_step b _)
  | asyncFunctionDef n a b line =>
    exact dfFunction_step_of n a b line s (dfStmtList_step b _)
  | classDef n b line =>
    simp only [dfStmt]
    exact dfStmtList_step b s
  | ifStmt t b e =>
    simp only [dfStmt]
    exact ((dfExpr_step t s).trans (dfStmtList_step b _)).trans (dfStmtList_step e _)
  | whileStmt t b e =>
    simp only [dfStmt]
    exact ((dfExpr_step t s).trans (dfStmtList_step b _)).trans (dfStmtList_step e _)
  | forStmt tg it b e =>
    simp only [dfStmt]
    exact (((dfExpr_step tg s).trans (dfExpr_step it _)).trans
      (dfStmtList_step b _)).trans (dfStmtList_step e _)
  | withStmt c b =>
    simp only [dfStmt]
    exact (dfExpr_step c s).trans (dfStmtList_step b _)
  | tryStmt b hs e f =>
    simp only [dfStmt]
    exact (((dfStmtList_step b s).trans (dfHandlerList_step hs _)).trans
      (dfStmtList_step e _)).trans (dfStmtList_step f _)
  | assertStmt t =>
    simp only [dfStmt]
    exact dfExpr_step t s
  | returnStmt v =>
    cases v with
    | none =>
      simp only [dfStmt]
      exact DFStep.refl s
    | some e =>
      simp only [dfStmt]
      exact dfExpr_step e s
  | assign ts v line =>
    simp only [dfStmt]
    exact (dfAssignTargets_step ts s).trans (dfExpr_step v _)
  | augAssign t op v line =>
    simp only [dfStmt]
    exact (dfAugTarget_step t line s).trans (dfExpr_step v _)
  | exprStmt v =>
    simp only [dfStmt]
    exact dfExpr_step v s
  | pass =>
    simp only [dfStmt]
    exact DFStep.refl s

theorem dfStmtList_step (sts : List Stmt) (s : DFState) : DFStep s (dfStmtList sts s) := by
  cases sts with
  | nil =>
    simp only [dfStmtList]
    exact DFStep.refl s
  | cons st sts =>
    simp only [dfStmtList]
    exact (dfStmt_step st s).trans (dfStmtList_step sts _)

theorem dfHandler_step (h : Handler) (s : DFState) : DFStep s (dfHandler h s) := by
  cases h with
  | mk b =>
    simp only [dfHandler]
    exact dfStmtList_step b s

theorem dfHandlerList_step (hs : List Handler) (s : DFState) :
    DFStep s (dfHandlerList hs s) := by
  cases hs with
  | nil =>
    simp only [dfHandlerList]
    exact DFStep.refl s
  | cons h hs =>
    simp only [dfHandlerList]
    exact (dfHandler_step h s).trans (dfHandlerList_step hs _)
end

theorem foldl_insert_eq (args : List String) (d : Finset String) :
    args.foldl (fun d a => insert a d) d = d ∪ args.toFinset := by
  induction args generalizing d with
  | nil => simp
  | cons a as ih =>
    simp only [List.foldl_cons, ih, List.toFinset_cons]
    ext x
    simp only [Finset.mem_union, Finset.mem_insert, List.mem_toFinset]
    tauto

/-- What one `visit_FunctionDef` call does to the record list: it appends
the records of nested definitions followed by exactly one record for this
function, whose defined set contains every formal parameter and whose
live set is `used - defined` and therefore contains no parameter. -/
theorem dfFunction_spec (n : String) (args : Arguments) (body : List Stmt) (line : ℕ)
    (s : DFState) :
    ∃ pre rec, (dfFunction n args body line s).functions = s.functions ++ pre ++ [rec]
      ∧ rec.function_name = n
      ∧ (∀ a ∈ args.args, a ∈ rec.variables_defined)
      ∧ rec.live_variables = rec.variables_used \ rec.variables_defined
      ∧ (∀ a ∈ args.args, a ∉ rec.live_variables) := by
  obtain ⟨hdefs, hfun, new, hnew, -⟩ := dfStmtList_step body
    { s with
      current_function := some n
      current_defs := args.args.foldl (fun d a => insert a d) ∅
      current_uses := ∅
      def_use_chains := []
      current_line := line }
  have hargdef : ∀ a ∈ args.args,
      a ∈ (dfStmtList body
        { s with
          current_function := some n
          current_defs := args.args.foldl (fun d a => insert a d) ∅
          current_uses := ∅
          def_use_chains := []
          current_line := line }).current_defs := by
    intro a ha
    apply hdefs
    simp [foldl_insert_eq, ha]
  refine ⟨new, dfEmit (dfStmtList body
    { s with
      current_function := some n
      current_defs := args.args.foldl (fun d a => insert a d) ∅
      current_uses := ∅
      def_use_chains := []
      current_line := line }), ?_, ?_, ?_, rfl, ?_⟩
  · simp only [dfFunction]
    rw [hnew]
  · simp [dfEmit, hfun]
  · intro a ha
    exact hargdef a ha
  · intro a ha
    simp only [dfEmit, Finset.mem_sdiff, not_and, not_not]
    intro _hu
    exact hargdef a ha

/-- The module `def f(*, y): return y` (line 1; the `return` on line 2):
`y` is a keyword-only formal parameter, which `visit_FunctionDef` does not
add to the defined set (its loop reads `node.args.args` only). -/
def kwonlyExample : List Stmt :=
  [.functionDef "f" ⟨[], [], none, ["y"], none⟩
    [.returnStmt (some (.name "y" .load 2))] 1]

/-- The record the analyzer emits for `def f(*, y): return y`. -/
def kwonlyRecord : DataFlowMetrics := ⟨"f", ∅, {"y"}, {"y"}, [], 0⟩

/-- C5 counterexample: the analyzer's record for `def f(*, y): return y`
has the formal parameter `y` in `live_variables` (and not in
`variables_defined`), because the source adds only `node.args.args` as
entry definitions — refuting the claim that no formal parameter of the
analyzed function is ever live. -/
theorem c5_counterexample :
    dfRun kwonlyExample = [kwonlyRecord]
    ∧ "y" ∈ kwonlyRecord.live_variables
    ∧ "y" ∉ kwonlyRecord.variables_defined := by
  refine ⟨by decide, by decide, by decide⟩

/-- C5 amended: every record emitted by the data-flow analyzer satisfies
`live = used - defined`, and the single record that `visit_FunctionDef`
emits for a function never has a positional-or-keyword formal parameter
(one listed in `node.args.args`) in its live set — those parameters are
definitions at entry and the defined set only grows.  Parameters of the
other kinds (positional-only, `*args`, keyword-only, `**kwargs`) are not
recorded as definitions and can appear in the live set (see
`c5_counterexample`). -/
theorem c5_dataflow_live :
    (∀ tree : List Stmt, ∀ r ∈ dfRun tree, DFRecOK r)
    ∧ (∀ (n : String) (args : Arguments) (body : List Stmt) (line : ℕ) (s : DFState),
      ∃ pre rec, (dfFunction n args body line s).functions = s.functions ++ pre ++ [rec]
        ∧ rec.function_name = n
        ∧ rec.live_variables = rec.variables_used \ rec.variables_defined
        ∧ (∀ a ∈ args.args, a ∈ rec.variables_defined ∧ a ∉ rec.live_variables)) := by
  constructor
  · intro tree r hr
    obtain ⟨-, -, new, hnew, hgood⟩ := dfStmtList_step tree DFState.init
    apply hgood
    unfold dfRun at hr
    rw [hnew] at hr
    simpa [DFState.init] using hr
  · intro n args body line s
    obtain ⟨pre, rec, h1, h2, h3, h4, h5⟩ := dfFunction_spec n args body line s
    exact ⟨pre, rec, h1, h2, h4, fun a ha => ⟨h3 a ha, h5 a ha⟩⟩

/-- Witness for C5: the first component applied to a concrete module. -/
theorem c5_dataflow_live_witness :
    ∃ r, r ∈ dfRun
        [Stmt.functionDef "f" ⟨[], ["p"], none, [], none⟩ [.exprStmt (.name "q" .load 2)] 1]
      ∧ DFRecOK r := by
  obtain ⟨-, -, new, hnew, hgood⟩ :=
    dfStmtList_step
      [Stmt.functionDef "f" ⟨[], ["p"], none, [], none⟩ [.exprStmt (.name "q" .load 2)] 1]
      DFState.init
  have hne : dfRun
      [Stmt.functionDef "f" ⟨[], ["p"], none, [], none⟩ [.exprStmt (.name "q" .load 2)] 1]
      ≠ [] := by
    obtain ⟨pre, rec, h1, -⟩ := dfFunction_spec "f" ⟨[], ["p"], none, [], none⟩
      [.exprStmt (.name "q" .load 2)] 1 DFState.init
    simp only [dfRun, dfStmtList, dfStmt_functionDef]
    rw [h1]
    simp
  obtain ⟨r, hr⟩ := List.exists_mem_of_ne_nil _ hne
  refine ⟨r, hr, c5_dataflow_live.1 _ r hr⟩

/-- The plain-name view of an assignment target used by `visit_Assign`:
`Some id` for an `ast.Name` target, `none` for every other shape. -/
def plainTargetName : Expr → Option String
  | .name id _ _ => some id
  | _ => none

theorem dfAssignTargets_eq (ts : List Expr) (s : DFState) :
    dfAssignTargets ts s =
      { s with current_defs := s.current_defs ∪ (ts.filterMap plainTargetName).toFinset } := by
  induction ts generalizing s with
  | nil => simp [dfAssignTargets]
  | cons t ts ih =>
    simp only [dfAssignTargets, List.foldl_cons] at *
    cases t with
    | name id c line =>
      rw [ih]
      simp only [dfAddTarget, plainTargetName, List.filterMap_cons]
      congr 1
      ext x
      simp only [Finset.mem_union, Finset.mem_insert, List.mem_toFinset, List.mem_cons]
      tauto
    | constant v line => rw [ih]; rfl
    | binOp l op r => rw [ih]; rfl
    | unaryOp op e => rw [ih]; rfl
    | boolOp op vs => rw [ih]; rfl
    | compare l ops cs => rw [ih]; rfl
    | call f as => rw [ih]; rfl
    | attr v a c => rw [ih]; rfl
    | subscript v i c => rw [ih]; rfl
    | tuple es c => rw [ih]; rfl

/-- C10: `visit_Assign` adds to the defined set exactly the identifiers of
the plain-`Name` targets and then visits only the right-hand side; in
particular, for a tuple-unpacking (or any non-`Name`) target the state
passed to the right-hand side visit is completely unchanged — the names
inside such targets are neither defined nor traversed as uses. -/
theorem c10_assign_targets :
    (∀ (ts : List Expr) (v : Expr) (line : ℕ) (s : DFState),
      dfStmt (.assign ts v line) s =
        dfExpr v
          { s with current_defs := s.current_defs ∪ (ts.filterMap plainTargetName).toFinset })
    ∧ (∀ (elts : List Expr) (c : Ctx) (v : Expr) (line : ℕ) (s : DFState),
      dfStmt (.assign [.tuple elts c] v line) s = dfExpr v s) := by
  have base : ∀ (ts : List Expr) (v : Expr) (line : ℕ) (s : DFState),
      dfStmt (.assign ts v line) s =
        dfExpr v
          { s with
            current_defs := s.current_defs ∪ (ts.filterMap plainTargetName).toFinset } := by
    intro ts v line s
    simp only [dfStmt, dfAssignTargets_eq]
  refine ⟨base, ?_⟩
  intro elts c v line s
  rw [base]
  simp [plainTargetName]

/-- Witness for C10: the tuple-target component applied to a concrete
assignment `(a, b) = c`. -/
theorem c10_assign_targets_witness :
    dfStmt (.assign [.tuple [.name "a" .store 3, .name "b" .store 3] .store]
        (.name "c" .load 3) 3) DFState.init
      = dfExpr (.name "c" .load 3) DFState.init :=
  c10_assign_targets.2 [.name "a" .store 3, .name "b" .store 3] .store
    (.name "c" .load 3) 3 DFState.init

/-! ## Unit boundary and parse failures (`CodebaseAnalyzer.analyze`) -/

/-- One source unit of the batch: its text lines, and the result of
`ast.parse` on its text (`none` models the parse failure that the three
tree-walking analyzers catch at the unit boundary). -/
structure SourceUnit where
  lines : List String
  parsed : Option (List Stmt)

/-- `SLOCAnalyzer.analyze_file` at the unit boundary: it reads the raw
lines and never parses, so the unit is counted whether or not its text
parses. -/
def slocAnalyzeUnit (u : SourceUnit) (m : SLOCMetrics) : SLOCMetrics :=
  slocAnalyzeFile u.lines m

/-- `CyclomaticComplexityAnalyzer.analyze_file` at the unit boundary: a
parse failure is caught and yields no records. -/
def cycAnalyzeUnit (u : SourceUnit) : List CyclomaticMetrics :=
  match u.parsed with
  | none => []
  | some tree => cycRun tree

/-- `HalsteadAnalyzer.analyze_file` at the unit boundary. -/
noncomputable def halAnalyzeUnit (u : SourceUnit) : Option HalsteadMetrics :=
  match u.parsed with
  | none => none
  | some tree => halsteadAnalyze tree

/-- `DataFlowAnalyzer.analyze_file` at the unit boundary. -/
def dfAnalyzeUnit (u : SourceUnit) : List DataFlowMetrics :=
  match u.parsed with
  | none => []
  | some tree => dfRun tree

/-- The cyclomatic loop of `CodebaseAnalyzer.analyze`: fresh analyzer per
unit, records concatenated in unit order. -/
def cycBatch (us : List SourceUnit) : List CyclomaticMetrics :=
  (us.map cycAnalyzeUnit).flatten

/-- The Halstead loop of `CodebaseAnalyzer.analyze`: only defined records
are collected. -/
noncomputable def halBatch (us : List SourceUnit) : List HalsteadMetrics :=
  us.filterMap halAnalyzeUnit

/-- The data-flow loop of `CodebaseAnalyzer.analyze`. -/
def dfBatch (us : List SourceUnit) : List DataFlowMetrics :=
  (us.map dfAnalyzeUnit).flatten

/-- The SLOC loop of `CodebaseAnalyzer.analyze`: one shared accumulator
threaded over all units. -/
def slocBatch (us : List SourceUnit) : SLOCMetrics :=
  us.foldl (fun m u => slocAnalyzeUnit u m) SLOCMetrics.init

/-- A unit whose text does not parse. -/
def badUnit : SourceUnit := ⟨["x ="], none⟩

/-- C8 counterexample: an unparseable unit contributes no records to the
cyclomatic, vocabulary and data-flow analyzers, but it does NOT
contribute zero to the size analyzer: `SLOCAnalyzer.analyze_file` reads
lines without parsing, so the unit is still counted (one file, one
source line) — refuting the claim that such a unit contributes zero
records to every one of the four analyzers. -/
theorem c8_counterexample :
    badUnit.parsed = none
    ∧ cycAnalyzeUnit badUnit = []
    ∧ halAnalyzeUnit badUnit = none
    ∧ dfAnalyzeUnit badUnit = []
    ∧ (slocAnalyzeUnit badUnit SLOCMetrics.init).files_analyzed = 1
    ∧ (slocAnalyzeUnit badUnit SLOCMetrics.init).total_lines = 1
    ∧ slocAnalyzeUnit badUnit SLOCMetrics.init ≠ SLOCMetrics.init := by
  obtain ⟨h1, h2, h3⟩ := slocAnalyzeFile_counts badUnit.lines SLOCMetrics.init
  refine ⟨rfl, rfl, rfl, rfl, ?_, ?_, ?_⟩
  · simpa [SLOCMetrics.init, badUnit, slocAnalyzeUnit] using h3
  · simpa [SLOCMetrics.init, badUnit, slocAnalyzeUnit] using h2
  · intro heq
    rw [slocAnalyzeUnit] at heq
    rw [heq] at h2
    simp [SLOCMetrics.init, badUnit] at h2

/-- C8 amended: a unit whose text fails to parse contributes zero records
to the three parsing analyzers (cyclomatic, vocabulary, data flow), the
batch continues as if the unit were absent from those analyzers' outputs,
and the size analyzer — which reads lines without parsing — still counts
the unit. -/
theorem c8_parse_failure_isolated (u : SourceUnit) (h : u.parsed = none) :
    cycAnalyzeUnit u = []
    ∧ halAnalyzeUnit u = none
    ∧ dfAnalyzeUnit u = []
    ∧ (∀ pre post : List SourceUnit,
        cycBatch (pre ++ u :: post) = cycBatch (pre ++ post)
        ∧ halBatch (pre ++ u :: post) = halBatch (pre ++ post)
        ∧ dfBatch (pre ++ u :: post) = dfBatch (pre ++ post))
    ∧ (∀ m : SLOCMetrics,
        (slocAnalyzeUnit u m).files_analyzed = m.files_analyzed + 1
        ∧ (slocAnalyzeUnit u m).total_lines = m.total_lines + u.lines.length) := by
  have hcyc : cycAnalyzeUnit u = [] := by simp [cycAnalyzeUnit, h]
  have hhal : halAnalyzeUnit u = none := by simp [halAnalyzeUnit, h]
  have hdf : dfAnalyzeUnit u = [] := by simp [dfAnalyzeUnit, h]
  refine ⟨hcyc, hhal, hdf, ?_, ?_⟩
  · intro pre post
    refine ⟨?_, ?_, ?_⟩
    · simp [cycBatch, hcyc]
    · simp [halBatch, hhal]
    · simp [dfBatch, hdf]
  · intro m
    obtain ⟨-, h2, h3⟩ := slocAnalyzeFile_counts u.lines m
    exact ⟨h3, h2⟩

/-- Witness for the amended C8 at the concrete unparseable unit. -/
theorem c8_parse_failure_isolated_witness :
    cycBatch [badUnit] = [] ∧ halBatch [badUnit] = [] ∧ dfBatch [badUnit] = [] := by
  obtain ⟨h1, h2, h3, hbatch, -⟩ := c8_parse_failure_isolated badUnit rfl
  obtain ⟨b1, b2, b3⟩ := hbatch [] []
  exact ⟨b1, b2, b3⟩

/-! ## CodebaseAnalyzer.generate_summary (lines 530-585) and order
invariance of the aggregation -/

/-- Componentwise addition of SLOC counters. -/
def SLOCMetrics.add (a b : SLOCMetrics) : SLOCMetrics :=
  ⟨a.total_lines + b.total_lines, a.source_lines + b.source_lines,
    a.comment_lines + b.comment_lines, a.blank_lines + b.blank_lines,
    a.files_analyzed + b.files_analyzed⟩

theorem SLOCMetrics.add_assoc (a b c : SLOCMetrics) :
    SLOCMetrics.add (SLOCMetrics.add a b) c = SLOCMetrics.add a (SLOCMetrics.add b c) := by
  simp [SLOCMetrics.add, Nat.add_assoc]

theorem SLOCMetrics.add_comm (a b : SLOCMetrics) :
    SLOCMetrics.add a b = SLOCMetrics.add b a := by
  simp [SLOCMetrics.add, Nat.add_comm]

theorem slocLine_shift (l : String) (m : SLOCMetrics) (b : Bool) :
    (slocLine m b l).1 = SLOCMetrics.add m (slocLine SLOCMetrics.init b l).1
    ∧ (slocLine m b l).2 = (slocLine SLOCMetrics.init b l).2 := by
  simp only [slocLine]
  split_ifs <;> simp [SLOCMetrics.add, SLOCMetrics.init]

theorem slocLines_shift (ls : List String) (m : SLOCMetrics) (b : Bool) :
    slocLines ls m b = SLOCMetrics.add m (slocLines ls SLOCMetrics.init b) := by
  induction ls generalizing m b with
  | nil =>
    cases m
    simp [slocLines, SLOCMetrics.add, SLOCMetrics.init]
  | cons l ls ih =>
    obtain ⟨hm, hflag⟩ := slocLine_shift l m b
    simp only [slocLines]
    rw [hm, hflag,
      ih (SLOCMetrics.add m (slocLine SLOCMetrics.init b l).1) ((slocLine SLOCMetrics.init b l).2),
      ih ((slocLine SLOCMetrics.init b l).1) ((slocLine SLOCMetrics.init b l).2),
      SLOCMetrics.add_assoc]

theorem slocAnalyzeUnit_shift (u : SourceUnit) (m : SLOCMetrics) :
    slocAnalyzeUnit u m = SLOCMetrics.add m (slocAnalyzeUnit u SLOCMetrics.init) := by
  have h1 := slocLines_shift u.lines
    { m with
      files_analyzed := m.files_analyzed + 1
      total_lines := m.total_lines + u.lines.length } false
  have h2 := slocLines_shift u.lines
    { SLOCMetrics.init with
      files_analyzed := SLOCMetrics.init.files_analyzed + 1
      total_lines := SLOCMetrics.init.total_lines + u.lines.length } false
  simp only [slocAnalyzeUnit, slocAnalyzeFile]
  rw [h1, h2, ← SLOCMetrics.add_assoc]
  congr 1
  simp [SLOCMetrics.add, SLOCMetrics.init]

theorem slocAnalyzeUnit_comm (u1 u2 : SourceUnit) (m : SLOCMetrics) :
    slocAnalyzeUnit u2 (slocAnalyzeUnit u1 m) = slocAnalyzeUnit u1 (slocAnalyzeUnit u2 m) := by
  rw [slocAnalyzeUnit_shift u2 (slocAnalyzeUnit u1 m), slocAnalyzeUnit_shift u1 m,
    slocAnalyzeUnit_shift u1 (slocAnalyzeUnit u2 m), slocAnalyzeUnit_shift u2 m,
    SLOCMetrics.add_assoc, SLOCMetrics.add_assoc,
    SLOCMetrics.add_comm (slocAnalyzeUnit u1 SLOCMetrics.init)]

theorem foldl_perm_of_comm {α β : Type _} (f : β → α → β)
    (comm : ∀ b a1 a2, f (f b a1) a2 = f (f b a2) a1)
    {l1 l2 : List α} (h : l1.Perm l2) : ∀ b, l1.foldl f b = l2.foldl f b := by
  induction h with
  | nil => intro b; rfl
  | cons x _ ih =>
    intro b
    simp only [List.foldl_cons]
    exact ih _
  | swap x y l =>
    intro b
    simp only [List.foldl_cons]
    rw [comm]
  | trans _ _ ih1 ih2 =>
    intro b
    rw [ih1, ih2]

theorem perm_flatten {α : Type _} {l1 l2 : List (List α)} (h : l1.Perm l2) :
    l1.flatten.Perm l2.flatten := by
  induction h with
  | nil => exact List.Perm.refl _
  | cons x _ ih => simpa only [List.flatten_cons] using ih.append_left x
  | swap x y l =>
    simp only [List.flatten_cons]
    rw [← List.append_assoc, ← List.append_assoc]
    exact List.perm_append_comm.append_right _
  | trans _ _ ih1 ih2 => exact ih1.trans ih2

/-- Python `max` over a list, as used on the (always nonempty) complexity
list of the summary. -/
def pyMax : List ℕ → ℕ
  | [] => 0
  | [a] => a
  | a :: b :: rest => max a (pyMax (b :: rest))

/-- Python `min` over a list. -/
def pyMin : List ℕ → ℕ
  | [] => 0
  | [a] => a
  | a :: b :: rest => min a (pyMin (b :: rest))

theorem le_pyMax (l : List ℕ) : ∀ x ∈ l, x ≤ pyMax l := by
  induction l with
  | nil => simp
  | cons a t ih =>
    intro x hx
    cases t with
    | nil =>
      rcases List.mem_singleton.mp hx with h
      simp [pyMax, h]
    | cons b r =>
      rcases List.mem_cons.mp hx with h | h
      · subst h
        simp [pyMax]
      · simp only [pyMax]
        exact le_trans (ih x h) (le_max_right _ _)

theorem pyMax_mem (l : List ℕ) (h : l ≠ []) : pyMax l ∈ l := by
  induction l with
  | nil => exact absurd rfl h
  | cons a t ih =>
    cases t with
    | nil => simp [pyMax]
    | cons b r =>
      rcases max_choice a (pyMax (b :: r)) with hm | hm
      · simp [pyMax, hm]
      · simp only [pyMax, hm]
        exact List.mem_cons_of_mem a (ih (by simp))

theorem pyMax_perm {l1 l2 : List ℕ} (h : l1.Perm l2) : pyMax l1 = pyMax l2 := by
  cases l1 with
  | nil => rw [List.perm_nil.mp h.symm]
  | cons a t =>
    have h2 : l2 ≠ [] := by
      intro hl
      subst hl
      simpa using h.length_eq
    exact le_antisymm
      (le_pyMax l2 _ (h.subset (pyMax_mem _ (by simp))))
      (le_pyMax (a :: t) _ (h.symm.subset (pyMax_mem _ h2)))

theorem pyMin_le (l : List ℕ) : ∀ x ∈ l, pyMin l ≤ x := by
  induction l with
  | nil => simp
  | cons a t ih =>
    intro x hx
    cases t with
    | nil =>
      rcases List.mem_singleton.mp hx with h
      simp [pyMin, h]
    | cons b r =>
      rcases List.mem_cons.mp hx with h | h
      · subst h
        simp [pyMin]
      · simp only [pyMin]
        exact le_trans (min_le_right _ _) (ih x h)

theorem pyMin_mem (l : List ℕ) (h : l ≠ []) : pyMin l ∈ l := by
  induction l with
  | nil => exact absurd rfl h
  | cons a t ih =>
    cases t with
    | nil => simp [pyMin]
    | cons b r =>
      rcases min_choice a (pyMin (b :: r)) with hm | hm
      · simp [pyMin, hm]
      · simp only [pyMin, hm]
        exact List.mem_cons_of_mem a (ih (by simp))

theorem pyMin_perm {l1 l2 : List ℕ} (h : l1.Perm l2) : pyMin l1 = pyMin l2 := by
  cases l1 with
  | nil => rw [List.perm_nil.mp h.symm]
  | cons a t =>
    have h2 : l2 ≠ [] := by
      intro hl
      subst hl
      simpa using h.length_eq
    exact le_antisymm
      (pyMin_le (a :: t) _ (h.symm.subset (pyMin_mem _ h2)))
      (pyMin_le l2 _ (h.subset (pyMin_mem _ (by simp))))

/-- `_summarize_cyclomatic`: `{}` (here `none`) on an empty record list,
otherwise count, mean, extrema and the filtered high-complexity list. -/
structure CycSummary where
  total_functions : ℕ
  average_complexity : ℚ
  max_complexity : ℕ
  min_complexity : ℕ
  high_complexity_functions : List CyclomaticMetrics

def summarizeCyclomatic : List CyclomaticMetrics → Option CycSummary
  | [] => none
  | m :: ms =>
      some
        { total_functions := (m :: ms).length
          average_complexity :=
            (((m :: ms).map (·.complexity)).sum : ℚ) / ((m :: ms).length : ℚ)
          max_complexity := pyMax ((m :: ms).map (·.complexity))
          min_complexity := pyMin ((m :: ms).map (·.complexity))
          high_complexity_functions := (m :: ms).filter (fun x => decide (10 < x.complexity)) }

/-- A finite IEEE-754 binary64 value in canonical form: `m = 0` (zero) or
`2^52 ≤ |m| < 2^53`, the value being `m * 2^e`.  Canonical form makes
value equality the same as structural equality. -/
structure D64 where
  m : ℤ
  e : ℤ
deriving DecidableEq, Repr

/-- The exact rational value of a binary64 datum. -/
def D64.val (d : D64) : ℚ := (d.m : ℚ) * (2 : ℚ) ^ d.e

/-- Bit length of a natural number (fuel-bounded; exact for numbers below
`2 ^ fuel`, and every significand handled here is far below `2 ^ 200`). -/
def bitLenAux : ℕ → ℕ → ℕ
  | 0, _ => 0
  | fuel + 1, n => if n = 0 then 0 else bitLenAux fuel (n / 2) + 1

/-- IEEE-754 binary64 addition of finite values: the exact sum, rounded
to 53 significant bits with round-half-to-even, renormalized to canonical
form.  Modelled for the normal range (no overflow, no subnormals) and
significand bit lengths below 200, which covers every value these
summaries handle. -/
def D64.add (x y : D64) : D64 :=
  let emin := min x.e y.e
  let M : ℤ := x.m * 2 ^ (x.e - emin).toNat + y.m * 2 ^ (y.e - emin).toNat
  if M = 0 then ⟨0, 0⟩
  else
    let L := bitLenAux 200 M.natAbs
    if L ≤ 53 then ⟨M * 2 ^ (53 - L), emin - (53 - L)⟩
    else
      let shift := L - 53
      let q := M.natAbs / 2 ^ shift
      let r := M.natAbs % 2 ^ shift
      let half := 2 ^ (shift - 1)
      let mr := if half < r then q + 1 else if r < half then q
        else if q % 2 = 0 then q else q + 1
      let sign : ℤ := if M < 0 then -1 else 1
      if mr = 2 ^ 53 then ⟨sign * 2 ^ 52, emin + shift + 1⟩
      else ⟨sign * (mr : ℤ), emin + (shift : ℤ)⟩

/-- Python's builtin `sum` on a list of floats: a left fold of binary64
additions starting from `0`, one rounding per addition. -/
def pyFloatSum (l : List D64) : D64 := l.foldl D64.add ⟨0, 0⟩

/-- IEEE-754 binary64 division of a finite value by a positive machine
integer below `2 ^ 59` (the unit counts of a summary), correctly rounded
with round-half-to-even; zero divided by anything is zero. -/
def D64.divByNat (x : D64) (n : ℕ) : D64 :=
  if n = 0 ∨ x.m = 0 then ⟨0, 0⟩
  else
    let k : ℕ := 60
    let num := x.m.natAbs * 2 ^ k
    let q := num / n
    let r := num % n
    let L := bitLenAux 200 q
    let shift := L - 53
    let q2 := q / 2 ^ shift
    let r2 := q % 2 ^ shift
    let half := 2 ^ (shift - 1)
    let roundUp :=
      if half < r2 then true
      else if r2 < half then false
      else if r ≠ 0 then true
      else q2 % 2 = 1
    let mr := if roundUp then q2 + 1 else q2
    let sign : ℤ := if x.m < 0 then -1 else 1
    if mr = 2 ^ 53 then ⟨sign * 2 ^ 52, x.e - (k : ℤ) + (shift : ℤ) + 1⟩
    else ⟨sign * (mr : ℤ), x.e - (k : ℤ) + (shift : ℤ)⟩

/-- The float values of one unit's Halstead record, as consumed by
`_summarize_halstead` (each is a finite binary64 value). -/
structure HalsteadFloatValues where
  volume : D64
  effort : D64
  bugs : D64
  difficulty : D64
deriving DecidableEq, Repr

/-- The summary dict of `_summarize_halstead` at binary64 precision. -/
structure HalFloatSummary where
  total_files_analyzed : ℕ
  average_volume : D64
  total_effort : D64
  estimated_bugs : D64
  average_difficulty : D64
deriving DecidableEq, Repr

/-- `_summarize_halstead` at IEEE binary64 precision: `{}` (`none`) on an
empty record list; otherwise the count, the float sums of volumes,
efforts and bugs, and the averages, each average being one rounded
division of the corresponding float sum by the count. -/
def summarizeHalsteadFloat : List HalsteadFloatValues → Option HalFloatSummary
  | [] => none
  | m :: ms =>
      some
        { total_files_analyzed := (m :: ms).length
          average_volume :=
            (pyFloatSum ((m :: ms).map (·.volume))).divByNat (m :: ms).length
          total_effort := pyFloatSum ((m :: ms).map (·.effort))
          estimated_bugs := pyFloatSum ((m :: ms).map (·.bugs))
          average_difficulty :=
            (pyFloatSum ((m :: ms).map (·.difficulty))).divByNat (m :: ms).length }

/-- `_summarize_dataflow`. -/
structure DFSummary where
  total_functions_analyzed : ℕ
  total_variables_defined : ℕ
  total_variables_used : ℕ
  average_live_variables : ℚ

def summarizeDataflow : List DataFlowMetrics → Option DFSummary
  | [] => none
  | m :: ms =>
      some
        { total_functions_analyzed := (m :: ms).length
          total_variables_defined := ((m :: ms).map (·.variables_defined.card)).sum
          total_variables_used := ((m :: ms).map (·.variables_used.card)).sum
          average_live_variables :=
            (((m :: ms).map (·.live_variables.card)).sum : ℚ) / ((m :: ms).length : ℚ) }

/-- Sameness of two cyclomatic summaries up to the order of the
high-complexity list: all numbers equal, and the filtered lists are
permutations of each other (the filtered list follows the unit
processing order, so only its order can differ between two runs). -/
def CycSummaryMatch : Option CycSummary → Option CycSummary → Prop
  | none, none => True
  | some a, some b =>
      a.total_functions = b.total_functions
      ∧ a.average_complexity = b.average_complexity
      ∧ a.max_complexity = b.max_complexity
      ∧ a.min_complexity = b.min_complexity
      ∧ a.high_complexity_functions.Perm b.high_complexity_functions
  | _, _ => False

theorem summarizeCyclomatic_perm {l1 l2 : List CyclomaticMetrics} (p : l1.Perm l2) :
    CycSummaryMatch (summarizeCyclomatic l1) (summarizeCyclomatic l2) := by
  cases l1 with
  | nil =>
    rw [List.perm_nil.mp p.symm]
    trivial
  | cons a t =>
    cases l2 with
    | nil => simpa using p.length_eq
    | cons b r =>
      simp only [summarizeCyclomatic, CycSummaryMatch]
      refine ⟨p.length_eq, ?_, pyMax_perm (p.map _), pyMin_perm (p.map _), p.filter _⟩
      rw [(p.map (fun x => (x.complexity : ℚ))).sum_eq, p.length_eq]

theorem summarizeDataflow_perm {l1 l2 : List DataFlowMetrics} (p : l1.Perm l2) :
    summarizeDataflow l1 = summarizeDataflow l2 := by
  cases l1 with
  | nil => rw [List.perm_nil.mp p.symm]
  | cons a t =>
    cases l2 with
    | nil => simpa using p.length_eq
    | cons b r =>
      simp only [summarizeDataflow, Option.some.injEq, DFSummary.mk.injEq]
      refine ⟨p.length_eq, (p.map (·.variables_defined.card)).sum_eq,
        (p.map (·.variables_used.card)).sum_eq, ?_⟩
      rw [(p.map (fun x => (x.live_variables.card : ℚ))).sum_eq, p.length_eq]

theorem summarizeHalsteadFloat_count_perm {l1 l2 : List HalsteadFloatValues}
    (p : l1.Perm l2) :
    (summarizeHalsteadFloat l1).map (·.total_files_analyzed)
      = (summarizeHalsteadFloat l2).map (·.total_files_analyzed) := by
  cases l1 with
  | nil => rw [List.perm_nil.mp p.symm]
  | cons a t =>
    cases l2 with
    | nil => simpa using p.length_eq
    | cons b r =>
      simp only [summarizeHalsteadFloat, Option.map_some', Option.some.injEq]
      exact p.length_eq

/-- The binary64 value nearest 0.1 (significand times `2 ^ -55`). -/
def dbl01 : D64 := ⟨3602879701896397, -55⟩

/-- The binary64 value nearest 0.2. -/
def dbl02 : D64 := ⟨3602879701896397, -54⟩

/-- The binary64 value nearest 0.3. -/
def dbl03 : D64 := ⟨5404319552844595, -54⟩

/-- A per-unit Halstead float record whose volume and effort are the
given value (bugs and difficulty zero). -/
def hfOf (d : D64) : HalsteadFloatValues := ⟨d, d, ⟨0, 0⟩, ⟨0, 0⟩⟩

/-- C9 counterexample: the same three per-unit Halstead records summed in
two different unit orders give different `total_effort` summary numbers,
because Python's float sum rounds after every addition and binary64
addition is not associative: `(0.1 + 0.2) + 0.3` rounds to
`5404319552844596 * 2 ^ -53` while `(0.3 + 0.2) + 0.1` rounds to
`5404319552844595 * 2 ^ -53` — refuting the claim that any permutation of
the unit processing order produces identical summary numbers. -/
theorem c9_counterexample :
    [hfOf dbl01, hfOf dbl02, hfOf dbl03].Perm [hfOf dbl03, hfOf dbl02, hfOf dbl01]
    ∧ (summarizeHalsteadFloat [hfOf dbl01, hfOf dbl02, hfOf dbl03]).map (·.total_effort)
        ≠ (summarizeHalsteadFloat [hfOf dbl03, hfOf dbl02, hfOf dbl01]).map (·.total_effort)
    ∧ pyFloatSum [dbl01, dbl02, dbl03] = ⟨5404319552844596, -53⟩
    ∧ pyFloatSum [dbl03, dbl02, dbl01] = ⟨5404319552844595, -53⟩
    ∧ (pyFloatSum [dbl01, dbl02, dbl03]).val ≠ (pyFloatSum [dbl03, dbl02, dbl01]).val := by
  refine ⟨by decide, by decide, by decide, by decide, ?_⟩
  have h1 : pyFloatSum [dbl01, dbl02, dbl03] = ⟨5404319552844596, -53⟩ := by decide
  have h2 : pyFloatSum [dbl03, dbl02, dbl01] = ⟨5404319552844595, -53⟩ := by decide
  rw [h1, h2]
  simp only [D64.val]
  intro heq
  have hne : ((2 : ℚ)) ^ (-53 : ℤ) ≠ 0 := by positivity
  have := mul_right_cancel₀ hne heq
  norm_num at this

/-- C9 amended: processing the same units in two different orders yields
the same SLOC aggregate, the same data-flow summary, a cyclomatic summary
with identical numbers whose high-complexity list is a permutation of the
other run's, and the same multiset of Halstead records with the same
Halstead unit count.  The Halstead float sums (and the averages derived
from them) are left folds of rounded binary64 additions and are NOT
order-invariant in general (see `c9_counterexample`); the other summary
numbers are integer sums, extrema, or a single rounding of an
order-invariant exact value, and are reproduced identically. -/
theorem c9_summary_order_invariant (us1 us2 : List SourceUnit) (h : us1.Perm us2) :
    slocBatch us1 = slocBatch us2
    ∧ CycSummaryMatch (summarizeCyclomatic (cycBatch us1)) (summarizeCyclomatic (cycBatch us2))
    ∧ (halBatch us1).Perm (halBatch us2)
    ∧ summarizeDataflow (dfBatch us1) = summarizeDataflow (dfBatch us2)
    ∧ (∀ hs1 hs2 : List HalsteadFloatValues, hs1.Perm hs2 →
        (summarizeHalsteadFloat hs1).map (·.total_files_analyzed)
          = (summarizeHalsteadFloat hs2).map (·.total_files_analyzed)) := by
  refine ⟨?_, ?_, ?_, ?_, ?_⟩
  · exact foldl_perm_of_comm _ (fun m u1 u2 => slocAnalyzeUnit_comm u1 u2 m) h _
  · exact summarizeCyclomatic_perm (perm_flatten (h.map cycAnalyzeUnit))
  · exact h.filterMap halAnalyzeUnit
  · exact summarizeDataflow_perm (perm_flatten (h.map dfAnalyzeUnit))
  · exact fun hs1 hs2 p => summarizeHalsteadFloat_count_perm p

/-- A trivially parseable unit used in witnesses. -/
def emptyUnit : SourceUnit := ⟨[], some []⟩

/-- Witness for C9: the invariance theorem applied to a concrete
transposition of two units. -/
theorem c9_summary_order_invariant_witness :
    slocBatch [badUnit, emptyUnit] = slocBatch [emptyUnit, badUnit]
    ∧ (summarizeHalsteadFloat [hfOf dbl01, hfOf dbl02]).map (·.total_files_analyzed)
        = (summarizeHalsteadFloat [hfOf dbl02, hfOf dbl01]).map (·.total_files_analyzed) := by
  obtain ⟨h1, -, -, -, hcount⟩ := c9_summary_order_invariant [badUnit, emptyUnit]
    [emptyUnit, badUnit] (List.Perm.swap emptyUnit badUnit [])
  exact ⟨h1, hcount [hfOf dbl01, hfOf dbl02] [hfOf dbl02, hfOf dbl01]
    (List.Perm.swap (hfOf dbl02) (hfOf dbl01) [])⟩

/-! ## COCOMO estimation engine (`cocomo_analysis.py`) -/

/-- The `ProjectMetrics` dataclass; `float` fields are exact rationals. -/
structure ProjectMetrics where
  name : String
  sloc : ℤ
  cyclomatic_avg : ℚ
  halstead_effort : ℚ
  halstead_bugs : ℚ
  num_functions : ℕ
  num_files : ℕ

/-- `COCOMOCalculator.BASIC_COEFFICIENTS` as a lookup; an unknown
project type would raise `KeyError` (modelled as `none`). -/
def BASIC_COEFFICIENTS : String → Option (ℝ × ℝ × ℝ × ℝ)
  | "organic" => some (2.4, 1.05, 2.5, 0.38)
  | "semi-detached" => some (3.0, 1.12, 2.5, 0.35)
  | "embedded" => some (3.6, 1.20, 2.5, 0.32)
  | _ => none

/-- `COCOMOCalculator.classify_project` (lines 72-106). -/
def classify_project (m : ProjectMetrics) : String :=
  let kloc : ℚ := (m.sloc : ℚ) / 1000
  let complexity_score : ℕ :=
    (if m.cyclomatic_avg > 10 then 2 else if m.cyclomatic_avg > 5 then 1 else 0)
    + (if m.num_files > 50 then 2 else if m.num_files > 20 then 1 else 0)
  if kloc < 50 then
    if complexity_score ≥ 2 then "semi-detached" else "organic"
  else if kloc < 300 then "semi-detached"
  else "embedded"

/-- The complexity score exactly as the specification's classifier
contract words it, for comparison with the code's classifier. -/
def claimScore (m : ProjectMetrics) : ℕ :=
  (if m.cyclomatic_avg > 10 then 2 else if m.cyclomatic_avg > 5 then 1 else 0)
  + (if m.num_files > 50 then 2 else if m.num_files > 20 then 1 else 0)

/-- Result of `calculate_basic_cocomo` (unrounded; the source rounds only
for presentation in the returned dict). -/
structure BasicCocomo where
  effort_pm : ℝ
  time_months : ℝ
  avg_people : ℝ
  productivity : ℝ

/-- `COCOMOCalculator.calculate_basic_cocomo` (lines 108-135). -/
noncomputable def calculate_basic_cocomo (kloc : ℝ) (project_type : String) :
    Option BasicCocomo :=
  (BASIC_COEFFICIENTS project_type).map fun c =>
    let effort := c.1 * kloc ^ c.2.1
    let time := c.2.2.1 * effort ^ c.2.2.2
    { effort_pm := effort
      time_months := time
      avg_people := effort / time
      productivity := kloc / effort }

/-- `COCOMOCalculator.estimate_cost_drivers` (lines 137-174): fixed
assumed ratings for 14 drivers, and CPLX derived from the average
cyclomatic complexity thresholds; insertion order preserved. -/
def estimate_cost_drivers (m : ProjectMetrics) (_project_type : String) :
    List (String × ℚ) :=
  [("RELY", 1.00), ("DATA", 0.94),
   ("CPLX", if m.cyclomatic_avg > 10 then 1.30 else if m.cyclomatic_avg > 5 then 1.15 else 1.00),
   ("TIME", 1.00), ("STOR", 1.00), ("VIRT", 1.00), ("TURN", 0.87),
   ("ACAP", 0.86), ("AEXP", 1.00), ("PCAP", 0.86), ("VEXP", 0.90), ("LEXP", 0.95),
   ("MODP", 0.91), ("TOOL", 0.91), ("SCED", 1.00)]

/-- Result of `calculate_intermediate_cocomo` (unrounded). -/
structure IntermediateCocomo where
  effort_pm : ℝ
  time_months : ℝ
  avg_people : ℝ
  productivity : ℝ
  eaf : ℝ
  base_effort_pm : ℝ

/-- `COCOMOCalculator.calculate_intermediate_cocomo` (lines 176-212):
`eaf` is the product of all driver ratings, adjusted effort is the basic
effort times `eaf`, and time/people/productivity are recomputed from the
adjusted effort. -/
noncomputable def calculate_intermediate_cocomo (kloc : ℝ) (project_type : String)
    (cost_drivers : List (String × ℚ)) : Option IntermediateCocomo :=
  let eaf : ℝ := cost_drivers.foldl (fun acc p => acc * (p.2 : ℝ)) 1
  (BASIC_COEFFICIENTS project_type).map fun c =>
    let base_effort := c.1 * kloc ^ c.2.1
    let effort := base_effort * eaf
    let time := c.2.2.1 * effort ^ c.2.2.2
    { effort_pm := effort
      time_months := time
      avg_people := effort / time
      productivity := kloc / effort
      eaf := eaf
      base_effort_pm := base_effort }

theorem kloc_lt_iff (s : ℤ) (c : ℤ) : ((s : ℚ) / 1000 < (c : ℚ)) ↔ s < 1000 * c := by
  rw [div_lt_iff₀ (by norm_num : (0:ℚ) < 1000)]
  constructor
  · intro h
    exact_mod_cast (by linarith : (s : ℚ) < 1000 * c)
  · intro h
    have : (s : ℚ) < 1000 * c := by exact_mod_cast h
    linarith

/-- C3: the classifier is a pure function of (KLOC, average complexity,
unit count); it returns "organic" exactly when KLOC < 50 and the score is
below 2, "semi-detached" exactly when KLOC < 50 with score at least 2 or
50 <= KLOC < 300, and "embedded" exactly when KLOC >= 300; in particular
KLOC exactly 50 gives "semi-detached" and KLOC exactly 300 gives
"embedded". -/
theorem c3_classifier :
    (∀ m m' : ProjectMetrics, m.sloc = m'.sloc → m.cyclomatic_avg = m'.cyclomatic_avg →
      m.num_files = m'.num_files → classify_project m = classify_project m')
    ∧ (∀ m : ProjectMetrics,
        (classify_project m = "organic" ↔
          ((m.sloc : ℚ) / 1000 < 50 ∧ claimScore m < 2))
        ∧ (classify_project m = "semi-detached" ↔
          (((m.sloc : ℚ) / 1000 < 50 ∧ 2 ≤ claimScore m)
            ∨ (50 ≤ (m.sloc : ℚ) / 1000 ∧ (m.sloc : ℚ) / 1000 < 300)))
        ∧ (classify_project m = "embedded" ↔ 300 ≤ (m.sloc : ℚ) / 1000)
        ∧ (m.sloc = 50000 → classify_project m = "semi-detached")
        ∧ (m.sloc = 300000 → classify_project m = "embedded")) := by
  constructor
  · intro m m' hs ha hf
    simp only [classify_project]
    rw [hs, ha, hf]
  · intro m
    have h50 : ((m.sloc : ℚ) / 1000 < 50) ↔ m.sloc < 50000 := by
      simpa using kloc_lt_iff m.sloc 50
    have h300 : ((m.sloc : ℚ) / 1000 < 300) ↔ m.sloc < 300000 := by
      simpa using kloc_lt_iff m.sloc 300
    simp only [classify_project, claimScore]
    split_ifs with h1 h2 h3 <;>
      refine ⟨?_, ?_, ?_, ?_, ?_⟩ <;>
        simp_all <;>
          omega
/-- Witness for C3: the characterization applied at the 50 000-SLOC
boundary metrics. -/
theorem c3_classifier_witness :
    classify_project ⟨"b", 50000, 1, 0, 0, 1, 1⟩ = "semi-detached" :=
  (c3_classifier.2 ⟨"b", 50000, 1, 0, 0, 1, 1⟩).2.2.2.1 rfl

/-! ## Scenario A/B numerics (C1) -/

theorem rpow_ratio_le (x a : ℝ) (p q : ℕ) (hx : 0 ≤ x) (hq : q ≠ 0)
    (h : a ^ q ≤ x ^ p) : a ≤ x ^ ((p : ℝ) / (q : ℝ)) := by
  have hkey : x ^ ((p : ℝ) / (q : ℝ)) = ((x ^ p : ℝ)) ^ ((q : ℝ))⁻¹ := by
    rw [div_eq_mul_inv, Real.rpow_mul hx, Real.rpow_natCast]
  rw [hkey]
  refine le_of_pow_le_pow_left₀ hq (Real.rpow_nonneg (pow_nonneg hx p) _) ?_
  rw [Real.rpow_inv_natCast_pow (pow_nonneg hx p) hq]
  exact h

theorem le_rpow_ratio (x b : ℝ) (p q : ℕ) (hx : 0 ≤ x) (hb : 0 ≤ b) (hq : q ≠ 0)
    (h : x ^ p ≤ b ^ q) : x ^ ((p : ℝ) / (q : ℝ)) ≤ b := by
  have hkey : x ^ ((p : ℝ) / (q : ℝ)) = ((x ^ p : ℝ)) ^ ((q : ℝ))⁻¹ := by
    rw [div_eq_mul_inv, Real.rpow_mul hx, Real.rpow_natCast]
  rw [hkey]
  refine le_of_pow_le_pow_left₀ hq hb ?_
  rw [Real.rpow_inv_natCast_pow (pow_nonneg hx p) hq]
  exact h

/-- Lower bound for `0.863 ** 1.05`. -/
theorem scenario_pow_lo : (0.85666 : ℝ) ≤ (0.863 : ℝ) ^ (1.05 : ℝ) := by
  rw [show (1.05 : ℝ) = ((21 : ℕ) : ℝ) / ((20 : ℕ) : ℝ) by norm_num]
  exact rpow_ratio_le 0.863 0.85666 21 20 (by norm_num) (by norm_num) (by norm_num)

/-- Upper bound for `0.863 ** 1.05`. -/
theorem scenario_pow_hi : (0.863 : ℝ) ^ (1.05 : ℝ) ≤ 0.85667 := by
  rw [show (1.05 : ℝ) = ((21 : ℕ) : ℝ) / ((20 : ℕ) : ℝ) by norm_num]
  exact le_rpow_ratio 0.863 0.85667 21 20 (by norm_num) (by norm_num) (by norm_num)
    (by norm_num)

theorem scenario_effort_lo : (2.055984 : ℝ) ≤ 2.4 * (0.863 : ℝ) ^ (1.05 : ℝ) := by
  have h := mul_le_mul_of_nonneg_left scenario_pow_lo (by norm_num : (0:ℝ) ≤ 2.4)
  linarith

theorem scenario_effort_hi : 2.4 * (0.863 : ℝ) ^ (1.05 : ℝ) ≤ 2.056008 := by
  have h := mul_le_mul_of_nonneg_left scenario_pow_hi (by norm_num : (0:ℝ) ≤ 2.4)
  linarith

theorem scenario_time_lo :
    (3.2875 : ℝ) ≤ 2.5 * (2.4 * (0.863 : ℝ) ^ (1.05 : ℝ)) ^ (0.38 : ℝ) := by
  have h1 : ((2.055984 : ℝ)) ^ (0.38 : ℝ)
      ≤ (2.4 * (0.863 : ℝ) ^ (1.05 : ℝ)) ^ (0.38 : ℝ) :=
    Real.rpow_le_rpow (by norm_num) scenario_effort_lo (by norm_num)
  have h2 : (1.3150 : ℝ) ≤ ((2.055984 : ℝ)) ^ (0.38 : ℝ) := by
    rw [show (0.38 : ℝ) = ((19 : ℕ) : ℝ) / ((50 : ℕ) : ℝ) by norm_num]
    exact rpow_ratio_le 2.055984 1.3150 19 50 (by norm_num) (by norm_num) (by norm_num)
  linarith

theorem scenario_time_hi :
    2.5 * (2.4 * (0.863 : ℝ) ^ (1.05 : ℝ)) ^ (0.38 : ℝ) ≤ 3.28775 := by
  have h1 : (2.4 * (0.863 : ℝ) ^ (1.05 : ℝ)) ^ (0.38 : ℝ)
      ≤ ((2.056008 : ℝ)) ^ (0.38 : ℝ) :=
    Real.rpow_le_rpow (by positivity) scenario_effort_hi (by norm_num)
  have h2 : ((2.056008 : ℝ)) ^ (0.38 : ℝ) ≤ 1.3151 := by
    rw [show (0.38 : ℝ) = ((19 : ℕ) : ℝ) / ((50 : ℕ) : ℝ) by norm_num]
    exact le_rpow_ratio 2.056008 1.3151 19 50 (by norm_num) (by norm_num) (by norm_num)
      (by norm_num)
  linarith

/-- The metrics of Scenario A/B: 863 source lines, average cyclomatic
complexity 1.3, 32 units (the `notejam` entry of the source's `main`). -/
def scenarioMetrics : ProjectMetrics :=
  ⟨"notejam", 863, 1.3, 96079.84458485126, 4.69048005994612, 70, 32⟩

/-- C1: on the Scenario A/B summary the classifier returns "organic", and
the Basic and Intermediate COCOMO results satisfy exactly the power-law
formulas, with effort about 2.06 person-months, duration about 3.29
months, team about 0.63, productivity about 0.42 KLOC/PM, a cost-driver
product (with CPLX = 1.00 since the average complexity is at most 5) of
about 0.428 over all 15 drivers, and adjusted effort about 0.88
person-months. -/
theorem c1_scenario :
    classify_project scenarioMetrics = "organic"
    ∧ (∃ b, calculate_basic_cocomo 0.863 "organic" = some b
        ∧ b.effort_pm = 2.4 * (0.863 : ℝ) ^ (1.05 : ℝ)
        ∧ b.time_months = 2.5 * b.effort_pm ^ (0.38 : ℝ)
        ∧ b.avg_people = b.effort_pm / b.time_months
        ∧ b.productivity = 0.863 / b.effort_pm
        ∧ |b.effort_pm - 2.06| < 0.005
        ∧ |b.time_months - 3.29| < 0.005
        ∧ |b.avg_people - 0.63| < 0.005
        ∧ |b.productivity - 0.42| < 0.005)
    ∧ (estimate_cost_drivers scenarioMetrics "organic").length = 15
    ∧ scenarioMetrics.cyclomatic_avg ≤ 5
    ∧ (estimate_cost_drivers scenarioMetrics "organic").lookup "CPLX" = some 1
    ∧ (∃ i, calculate_intermediate_cocomo 0.863 "organic"
          (estimate_cost_drivers scenarioMetrics "organic") = some i
        ∧ i.base_effort_pm = 2.4 * (0.863 : ℝ) ^ (1.05 : ℝ)
        ∧ i.effort_pm = i.base_effort_pm * i.eaf
        ∧ |i.eaf - 0.428| < 0.001
        ∧ |i.effort_pm - 0.88| < 0.001) := by
  have helo := scenario_effort_lo
  have hehi := scenario_effort_hi
  have htlo := scenario_time_lo
  have hthi := scenario_time_hi
  have htpos : (0 : ℝ) < 2.5 * (2.4 * (0.863 : ℝ) ^ (1.05 : ℝ)) ^ (0.38 : ℝ) := by
    linarith
  have hepos : (0 : ℝ) < 2.4 * (0.863 : ℝ) ^ (1.05 : ℝ) := by linarith
  refine ⟨?_, ?_, rfl, by norm_num [scenarioMetrics], ?_, ?_⟩
  · simp only [classify_project, scenarioMetrics]
    norm_num
  · refine ⟨_, rfl, rfl, rfl, rfl, rfl, ?_, ?_, ?_, ?_⟩
    · rw [abs_sub_lt_iff]
      constructor <;> linarith
    · rw [abs_sub_lt_iff]
      constructor <;> linarith
    · rw [abs_sub_lt_iff]
      have hq1 : 2.4 * (0.863 : ℝ) ^ (1.05 : ℝ)
          / (2.5 * (2.4 * (0.863 : ℝ) ^ (1.05 : ℝ)) ^ (0.38 : ℝ))
          ≤ 2.056008 / 3.2875 := by
        apply div_le_div₀ (by norm_num) hehi (by norm_num) htlo
      have hq2 : (2.055984 : ℝ) / 3.28775
          ≤ 2.4 * (0.863 : ℝ) ^ (1.05 : ℝ)
            / (2.5 * (2.4 * (0.863 : ℝ) ^ (1.05 : ℝ)) ^ (0.38 : ℝ)) := by
        apply div_le_div₀ (by positivity) helo htpos hthi
      constructor <;> nlinarith
    · rw [abs_sub_lt_iff]
      have hq1 : (0.863 : ℝ) / (2.4 * (0.863 : ℝ) ^ (1.05 : ℝ))
          ≤ 0.863 / 2.055984 := by
        apply div_le_div₀ (by norm_num) (le_refl _) (by norm_num) helo
      have hq2 : (0.863 : ℝ) / 2.056008
          ≤ 0.863 / (2.4 * (0.863 : ℝ) ^ (1.05 : ℝ)) := by
        apply div_le_div₀ (by positivity) (le_refl _) hepos hehi
      constructor <;> nlinarith
  · simp only [estimate_cost_drivers, scenarioMetrics]
    norm_num [List.lookup]
    decide
  · have heaf : ((estimate_cost_drivers scenarioMetrics "organic").foldl
        (fun acc p => acc * (p.2 : ℝ)) 1) = 0.42824559858444 := by
      simp only [estimate_cost_drivers, scenarioMetrics]
      norm_num [List.foldl]
    refine ⟨_, rfl, rfl, rfl, ?_, ?_⟩
    · rw [heaf]
      rw [abs_sub_lt_iff]
      constructor <;> norm_num
    · rw [heaf, abs_sub_lt_iff]
      constructor <;> nlinarith

end CodeMetrics
